import Mathlib

/-
Verification of the smart-city analytics engine: a shallow embedding of the
MongoDB aggregation pipelines in `analytics/analysis.py` and the dashboard
pipelines / KPI helpers in `dashboard/app.py`.

Modelling conventions:
* A stored document is a `Reading`; the numeric fields are `Option Int`
  because BSON documents may lack a field, and `$avg` skips missing values
  while `{f: {$gt: c}}` is false when `f` is missing (missing sorts below
  all numbers in the BSON comparison order).
* `$avg` followed by `$round [x, 2]` is modelled over exact rationals;
  MongoDB's `$round` uses round-half-to-even, modelled by `roundHalfEven`.
* `$group` emits its groups in an unspecified order; we model the emitted
  order as the order of first occurrence of each key (`List.dedup` keeps
  one occurrence per key and never reorders).  Pipelines that end in a
  `$sort` are insensitive to this choice.
* `$toDate` on a string it cannot parse raises a conversion failure that
  aborts the whole aggregation (it does not skip the document); the two
  hourly pipelines therefore return `Except String _`.
* `$count` emits no document at all when its input is empty, which is why
  `get_abnormal_count` ends in `res[0]["count"] if res else 0`.
-/

structure Reading where
  sensor_id : String
  area : String
  timestamp : String
  noise_db : Option Int
  traffic_count : Option Int
  pm25 : Option Int
deriving DecidableEq, Repr

/-- Round-half-to-even to the nearest integer, the rounding used by
MongoDB's `$round`, computed on the reduced fraction: `f` is `⌊q⌋` and
`r2` is `2·den·(q - f)`, so `r2 < den` means the fractional part is below
one half, `den < r2` above, and `r2 = den` is an exact tie. -/
def roundHalfEven (q : Rat) : Int :=
  let f : Int := q.num / (q.den : Int)
  let r2 : Int := 2 * (q.num - f * (q.den : Int))
  if r2 < (q.den : Int) then f
  else if (q.den : Int) < r2 then f + 1
  else if f % 2 = 0 then f else f + 1

/-- MongoDB `{$round: [x, 2]}`: round to 2 decimal places, half to even. -/
def round2 (q : Rat) : Rat := (roundHalfEven (q * 100) : Rat) / 100

/-- MongoDB `$avg` over the present values of a group: `null` (here `none`)
when no value is present, otherwise the exact arithmetic mean. -/
def mean? (xs : List Int) : Option Rat :=
  if xs.isEmpty then none else some ((xs.sum : Rat) / (xs.length : Rat))

/-- Output row of an area-keyed `$group`/`$project` pipeline
(`{area: ..., avg_pm25/avg_noise: ...}`); the metric is `none` when the
group's `$avg` was `null` (every grouped value missing). -/
structure AreaRow where
  area : String
  metric : Option Rat
deriving DecidableEq, Repr

/-- Output row of the hour-keyed `$group`/`$project` pipeline
(`{hour: ..., avg_traffic: ...}`). -/
structure HourRow where
  hour : Nat
  metric : Option Rat
deriving DecidableEq, Repr

/-- Lexicographic (code-point) comparison of character lists: the order in
which both MongoDB's `$sort` on a string key and Python's `sorted` arrange
the ASCII strings this repository stores. -/
def charsLE : List Char → List Char → Bool
  | [], _ => true
  | _ :: _, [] => false
  | a :: as, b :: bs =>
    if a < b then true else if b < a then false else charsLE as bs

/-- Lexicographic order on strings, via their character lists. -/
def strLE (a b : String) : Prop := charsLE a.data b.data = true

instance : DecidableRel strLE := fun a b => inferInstanceAs (Decidable (charsLE a.data b.data = true))

theorem charsLE_total (as bs : List Char) : charsLE as bs = true ∨ charsLE bs as = true := by
  induction as generalizing bs with
  | nil => left; rfl
  | cons a as ih =>
    cases bs with
    | nil => right; rfl
    | cons b bs =>
      rcases lt_trichotomy a b with h | h | h
      · left; simp [charsLE, h]
      · subst h; simpa [charsLE, lt_irrefl] using ih bs
      · right; simp [charsLE, h]

theorem charsLE_trans : ∀ {as bs cs : List Char},
    charsLE as bs = true → charsLE bs cs = true → charsLE as cs = true
  | [], _, _, _, _ => rfl
  | _ :: _, [], _, h, _ => by simp [charsLE] at h
  | _ :: _, _ :: _, [], _, h' => by simp [charsLE] at h'
  | a :: as, b :: bs, c :: cs, h, h' => by
    simp only [charsLE] at h h' ⊢
    rcases lt_trichotomy a b with hab | hab | hab
    · rcases lt_trichotomy b c with hbc | hbc | hbc
      · simp [lt_trans hab hbc]
      · subst hbc; simp [hab]
      · simp [hab, lt_asymm hab, hbc, lt_asymm hbc] at h h' ⊢
    · subst hab
      rcases lt_trichotomy a c with hac | hac | hac
      · simp [hac]
      · subst hac
        simp [lt_irrefl] at h h' ⊢
        exact charsLE_trans h h'
      · simp [lt_irrefl, hac, lt_asymm hac] at h h' ⊢
    · simp [hab, lt_asymm hab] at h

theorem strLE_total (a b : String) : strLE a b ∨ strLE b a := charsLE_total a.data b.data

theorem strLE_trans {a b c : String} (h : strLE a b) (h' : strLE b c) : strLE a c :=
  charsLE_trans h h'

def areaRowLE (r s : AreaRow) : Prop := strLE r.area s.area

instance : DecidableRel areaRowLE := fun r s => inferInstanceAs (Decidable (strLE r.area s.area))

instance : IsTotal AreaRow areaRowLE := ⟨fun a b => strLE_total a.area b.area⟩

instance : IsTrans AreaRow areaRowLE := ⟨fun _ _ _ h h' => strLE_trans h h'⟩

def hourRowLE (r s : HourRow) : Prop := r.hour ≤ s.hour

instance : DecidableRel hourRowLE := fun r s => inferInstanceAs (Decidable (r.hour ≤ s.hour))

instance : IsTotal HourRow hourRowLE := ⟨fun a b => le_total a.hour b.hour⟩

instance : IsTrans HourRow hourRowLE := ⟨fun _ _ _ h h' => le_trans h h'⟩

/-- BSON ascending comparison on a possibly-null number: null sorts below
every number, so a `$sort {metric: -1}` puts numbers before nulls. -/
def bsonLeOpt (x y : Option Rat) : Bool :=
  match x, y with
  | none, _ => true
  | some _, none => false
  | some a, some b => a ≤ b

def areaRowMetricGE (r s : AreaRow) : Prop := bsonLeOpt s.metric r.metric = true

instance : DecidableRel areaRowMetricGE := fun r s => inferInstanceAs (Decidable (bsonLeOpt s.metric r.metric = true))

def hourRowMetricGE (r s : HourRow) : Prop := bsonLeOpt s.metric r.metric = true

instance : DecidableRel hourRowMetricGE := fun r s => inferInstanceAs (Decidable (bsonLeOpt s.metric r.metric = true))

def tsLE (r s : Reading) : Prop := strLE r.timestamp s.timestamp

instance : DecidableRel tsLE := fun r s => inferInstanceAs (Decidable (strLE r.timestamp s.timestamp))

instance : IsTotal Reading tsLE := ⟨fun a b => strLE_total a.timestamp b.timestamp⟩

instance : IsTrans Reading tsLE := ⟨fun _ _ _ h h' => strLE_trans h h'⟩

/-- Numeric value of a decimal digit character. -/
def digitVal (c : Char) : Option Nat :=
  if c.isDigit then some (c.toNat - 48) else none

/-- Two-digit decimal number. -/
def twoDigits (a b : Char) : Option Nat := do
  pure ((← digitVal a) * 10 + (← digitVal b))

/-- Hour-of-day in UTC for wall-clock `h:mi` at a zone offset of `offMin`
minutes (what `$hour` of the parsed instant yields). -/
def hourWithOffset (h mi : Nat) (offMin : Int) : Nat :=
  ((((h : Int) * 60 + (mi : Int)) - offMin) % 1440).toNat / 60

/-- Parse an ISO-8601 `±HH:MM` zone offset body into minutes. -/
def offsetHM : List Char → Option Nat
  | [h1, h2, ':' , m1, m2] => do
    let h ← twoDigits h1 h2
    let m ← twoDigits m1 m2
    if h ≤ 14 ∧ m ≤ 59 then pure (h * 60 + m) else none
  | _ => none

/-- Parse the zone designator after the time part: none, `Z`, or `±HH:MM`. -/
def zoneSuffix : List Char → Option Int
  | [] => some 0
  | ['Z'] => some 0
  | '+' :: rest => (offsetHM rest).map (fun m => (m : Int))
  | '-' :: rest => (offsetHM rest).map (fun m => -(m : Int))
  | _ => none

/-- Parse what follows `YYYY-MM-DDTHH:MM`: an optional `:SS`, then an
optional zone designator. -/
def afterMinutes : List Char → Option Int
  | ':' :: s1 :: s2 :: rest => do
    let s ← twoDigits s1 s2
    if s ≤ 59 then zoneSuffix rest else none
  | cs => zoneSuffix cs

/-- Model of `{$toDate: "$timestamp"}` followed by `{$hour: "$ts"}`:
parse an ISO-8601 string of the shape produced by this repository
(`YYYY-MM-DDTHH:MM[:SS][Z|±HH:MM]`) and return the UTC hour-of-day, or
`none` when the string is not a convertible date. -/
def parseHour? (s : String) : Option Nat :=
  match s.data with
  | y1 :: y2 :: y3 :: y4 :: '-' :: mo1 :: mo2 :: '-' :: dy1 :: dy2 :: 'T' :: h1 :: h2 :: ':' :: mi1 :: mi2 :: rest => do
    let _ ← twoDigits y1 y2
    let _ ← twoDigits y3 y4
    let mo ← twoDigits mo1 mo2
    let dy ← twoDigits dy1 dy2
    let h ← twoDigits h1 h2
    let mi ← twoDigits mi1 mi2
    let off ← afterMinutes rest
    if 1 ≤ mo ∧ mo ≤ 12 ∧ 1 ≤ dy ∧ dy ≤ 31 ∧ h ≤ 23 ∧ mi ≤ 59 then
      pure (hourWithOffset h mi off)
    else none
  | _ => none

/-- The `$match` predicate of abnormal-reading detection:
`{$or: [{noise_db: {$gt: 85}}, {traffic_count: {$gt: 150}}, {pm25: {$gt: 100}}]}`.
A missing field compares below every number, so its `$gt` clause is false. -/
def abnormalPred (r : Reading) : Bool :=
  (match r.noise_db with | some v => 85 < v | none => false) ||
  (match r.traffic_count with | some v => 150 < v | none => false) ||
  (match r.pm25 with | some v => 100 < v | none => false)

namespace analysis

/-- The `$group _id: "$area"` stage applied to `docs`, producing one row per
distinct area with the `$avg` of `field` over the group, `$round`ed to 2
places; groups emitted in first-occurrence order of the key. -/
def groupByArea (field : Reading → Option Int) (docs : List Reading) : List AreaRow :=
  ((docs.map (·.area)).dedup).map fun a =>
    { area := a
      metric := (mean? ((docs.filter (fun r => r.area == a)).filterMap field)).map round2 }

/-- Embedding of `analysis.area_wise_avg_pm25`: group by area, average
`pm25`, round to 2 places, sort ascending by area. -/
def area_wise_avg_pm25 (docs : List Reading) : List AreaRow :=
  List.insertionSort areaRowLE (groupByArea (·.pm25) docs)

/-- Embedding of `analysis.avg_noise_by_area`: group by area, average
`noise_db`, round to 2 places, sort ascending by area. -/
def avg_noise_by_area (docs : List Reading) : List AreaRow :=
  List.insertionSort areaRowLE (groupByArea (·.noise_db) docs)

/-- The `$addFields ts: {$toDate: "$timestamp"}` stage on one document,
keeping what later stages need ($hour of ts, traffic_count); a string that
cannot be converted aborts the aggregation with a conversion failure. -/
def toDateHour (r : Reading) : Except String (Nat × Option Int) :=
  match parseHour? r.timestamp with
  | some h => .ok (h, r.traffic_count)
  | none => .error ("conversion failure: cannot convert " ++ r.timestamp ++ " to date")

/-- The `$addFields`/`$toDate` stage over the whole stream: convert each
document in order, aborting the aggregation at the first document whose
timestamp cannot be converted. -/
def toDates : List Reading → Except String (List (Nat × Option Int))
  | [] => .ok []
  | r :: rs =>
    match toDateHour r with
    | .error e => .error e
    | .ok p =>
      match toDates rs with
      | .error e => .error e
      | .ok ps => .ok (p :: ps)

/-- The hour-keyed `$group`/`$project` applied to the converted pairs. -/
def groupByHour (pairs : List (Nat × Option Int)) : List HourRow :=
  ((pairs.map (·.1)).dedup).map fun h =>
    { hour := h
      metric := (mean? ((pairs.filter (fun p => p.1 == h)).filterMap (·.2))).map round2 }

/-- Embedding of `analysis.traffic_density_by_hour`: convert every
timestamp with `$toDate` (aborting on the first unconvertible one), group
by `$hour`, average `traffic_count`, round, sort ascending by hour. -/
def traffic_density_by_hour (docs : List Reading) : Except String (List HourRow) :=
  match toDates docs with
  | .error e => .error e
  | .ok pairs => .ok (List.insertionSort hourRowLE (groupByHour pairs))

/-- Embedding of `analysis.abnormal_readings`: `$match` the three-way
`$or`, `$project` the six reading fields (dropping only `_id`, which the
model does not carry), `$sort {timestamp: 1}`, `$limit 1000`. -/
def abnormal_readings (docs : List Reading) : List Reading :=
  (List.insertionSort tsLE (docs.filter abnormalPred)).take 1000

/-- Embedding of `analysis.all_analytics`. -/
structure AllAnalytics where
  area_avg_pm25 : List AreaRow
  traffic_by_hour : Except String (List HourRow)
  noise_by_area : List AreaRow
  abnormal : List Reading
deriving Repr

/-- Embedding of `analysis.all_analytics`: the four unfiltered operations
bundled for the caller. -/
def all_analytics (docs : List Reading) : AllAnalytics :=
  { area_avg_pm25 := area_wise_avg_pm25 docs
    traffic_by_hour := traffic_density_by_hour docs
    noise_by_area := avg_noise_by_area docs
    abnormal := abnormal_readings docs }

end analysis

namespace app

/-- The composed filter of one dashboard refresh:
`filter_query = {"area": {"$in": selected_areas}} if selected_areas else {}`.
An empty selection composes the empty query `{}`, which matches every
document (and `_match_filter` then emits no `$match` stage at all, with the
same effect); a non-empty selection matches documents whose `area` is a
member of the selection. -/
def matchArea (sel : List String) (r : Reading) : Bool :=
  if sel.isEmpty then true else sel.contains r.area

/-- Embedding of `_get_distinct_areas`: `sorted(collection.distinct("area"))`. -/
def _get_distinct_areas (docs : List Reading) : List String :=
  List.insertionSort strLE ((docs.map (·.area)).dedup)

/-- Embedding of `get_avg_pm25`: `$match` the filter, `$group _id: None`
averaging `pm25`, `$round` to 2 places; `$group` over an empty input emits
no row, and the code returns `res[0]["avg"] if res else None` (a `null`
average is also Python `None`). -/
def get_avg_pm25 (sel : List String) (docs : List Reading) : Option Rat :=
  let filtered := docs.filter (matchArea sel)
  let res : List (Option Rat) :=
    if filtered.isEmpty then []
    else [(mean? (filtered.filterMap (·.pm25))).map round2]
  match res with
  | [] => none
  | v :: _ => v

/-- Embedding of `get_worst_pollution_area`: filter, group by area with
rounded average `pm25`, `$sort {avg_pm25: -1}`, `$limit 1`, then
`(res[0]["area"], res[0]["avg_pm25"]) if res else (None, None)`. -/
def get_worst_pollution_area (sel : List String) (docs : List Reading) :
    Option String × Option Rat :=
  let filtered := docs.filter (matchArea sel)
  let res := List.insertionSort areaRowMetricGE (analysis.groupByArea (·.pm25) filtered)
  match res with
  | [] => (none, none)
  | r :: _ => (some r.area, r.metric)

/-- Embedding of `get_peak_traffic_hour`: filter, `$toDate` every
timestamp (aborting on an unconvertible one), group by `$hour` with
rounded average `traffic_count`, `$sort {avg_traffic: -1}`, `$limit 1`,
then `(res[0]["hour"], res[0]["avg_traffic"]) if res else (None, None)`. -/
def get_peak_traffic_hour (sel : List String) (docs : List Reading) :
    Except String (Option Nat × Option Rat) :=
  match analysis.toDates (docs.filter (matchArea sel)) with
  | .error e => .error e
  | .ok pairs =>
    match List.insertionSort hourRowMetricGE (analysis.groupByHour pairs) with
    | [] => .ok (none, none)
    | r :: _ => .ok (some r.hour, r.metric)

/-- Embedding of `get_noisiest_area`: filter, group by area with rounded
average `noise_db`, `$sort {avg_noise: -1}`, `$limit 1`, then
`(res[0]["area"], res[0]["avg_noise"]) if res else (None, None)`. -/
def get_noisiest_area (sel : List String) (docs : List Reading) :
    Option String × Option Rat :=
  let filtered := docs.filter (matchArea sel)
  let res := List.insertionSort areaRowMetricGE (analysis.groupByArea (·.noise_db) filtered)
  match res with
  | [] => (none, none)
  | r :: _ => (some r.area, r.metric)

/-- Embedding of `get_abnormal_count`: one `$match` whose document is the
three-way `$or` updated with the area filter (a conjunction), then
`$count`; `$count` emits no document for an empty input, and the code
returns `res[0]["count"] if res else 0`. No `$limit` stage is present. -/
def get_abnormal_count (sel : List String) (docs : List Reading) : Nat :=
  let matched := docs.filter (fun r => abnormalPred r && matchArea sel r)
  let res : List Nat := if matched.isEmpty then [] else [matched.length]
  match res with
  | [] => 0
  | n :: _ => n

/-- The dashboard's inline `area_pm` pipeline: `$match` the filter, group
by area with rounded average `pm25`. It has NO `$sort` stage, so its rows
are in the group-emission order (modelled as first occurrence), not sorted
by area; the chart later sorts them by metric for display. -/
def area_pm (sel : List String) (docs : List Reading) : List AreaRow :=
  analysis.groupByArea (·.pm25) (docs.filter (matchArea sel))

/-- The dashboard's inline `noise_by_area` pipeline: like `area_pm` with
`noise_db`; again no `$sort` stage. -/
def noise_by_area (sel : List String) (docs : List Reading) : List AreaRow :=
  analysis.groupByArea (·.noise_db) (docs.filter (matchArea sel))

/-- The dashboard's inline `traffic_by_hour` pipeline: `$match` the
filter, `$toDate` (aborting on an unconvertible timestamp), group by
`$hour` with rounded average `traffic_count`; no `$sort` stage. -/
def traffic_by_hour (sel : List String) (docs : List Reading) :
    Except String (List HourRow) :=
  match analysis.toDates (docs.filter (matchArea sel)) with
  | .error e => .error e
  | .ok pairs => .ok (analysis.groupByHour pairs)

/-- The dashboard's inline `abnormal` pipeline: one `$match` combining the
three-way `$or` with the area filter, `$project` the six fields,
`$sort {timestamp: 1}`, `$limit 1000`. -/
def abnormal (sel : List String) (docs : List Reading) : List Reading :=
  (List.insertionSort tsLE
    (docs.filter (fun r => abnormalPred r && matchArea sel r))).take 1000

/-- The values one dashboard refresh computes: the five KPIs and the four
named result collections. -/
structure Refresh where
  avg_pm : Option Rat
  worst : Option String × Option Rat
  peak : Except String (Option Nat × Option Rat)
  noisiest : Option String × Option Rat
  abnormal_cnt : Nat
  area_pm : List AreaRow
  noise_by_area : List AreaRow
  traffic_by_hour : Except String (List HourRow)
  abnormal : List Reading

/-- One dashboard refresh: every KPI and collection computed from the same
`selected_areas` value (hence the same composed `filter_query`). -/
def refresh (sel : List String) (docs : List Reading) : Refresh :=
  { avg_pm := get_avg_pm25 sel docs
    worst := get_worst_pollution_area sel docs
    peak := get_peak_traffic_hour sel docs
    noisiest := get_noisiest_area sel docs
    abnormal_cnt := get_abnormal_count sel docs
    area_pm := area_pm sel docs
    noise_by_area := noise_by_area sel docs
    traffic_by_hour := traffic_by_hour sel docs
    abnormal := abnormal sel docs }

end app

namespace population

/-
Specification-side form of the dashboard operations, following the spec's
words: each operation is a function of an already-filtered population
("the composed predicate is passed unmodified into every aggregation
operation ... so that all derived numbers are mutually consistent (same
population)").  The refinement theorem for C5 compares `app.refresh`
against these.
-/

/-- Global-average-pollution KPI over a population. -/
def avg_pm25 (pop : List Reading) : Option Rat :=
  let res : List (Option Rat) :=
    if pop.isEmpty then []
    else [(mean? (pop.filterMap (·.pm25))).map round2]
  match res with
  | [] => none
  | v :: _ => v

/-- Worst-pollution-area KPI over a population. -/
def worst_pollution_area (pop : List Reading) : Option String × Option Rat :=
  match List.insertionSort areaRowMetricGE (analysis.groupByArea (·.pm25) pop) with
  | [] => (none, none)
  | r :: _ => (some r.area, r.metric)

/-- Peak-traffic-hour KPI over a population. -/
def peak_traffic_hour (pop : List Reading) : Except String (Option Nat × Option Rat) :=
  match analysis.toDates pop with
  | .error e => .error e
  | .ok pairs =>
    match List.insertionSort hourRowMetricGE (analysis.groupByHour pairs) with
    | [] => .ok (none, none)
    | r :: _ => .ok (some r.hour, r.metric)

/-- Noisiest-area KPI over a population. -/
def noisiest_area (pop : List Reading) : Option String × Option Rat :=
  match List.insertionSort areaRowMetricGE (analysis.groupByArea (·.noise_db) pop) with
  | [] => (none, none)
  | r :: _ => (some r.area, r.metric)

/-- Abnormal-count KPI over a population. -/
def abnormal_count (pop : List Reading) : Nat :=
  let matched := pop.filter abnormalPred
  let res : List Nat := if matched.isEmpty then [] else [matched.length]
  match res with
  | [] => 0
  | n :: _ => n

/-- Area-pollution collection over a population. -/
def area_pm (pop : List Reading) : List AreaRow :=
  analysis.groupByArea (·.pm25) pop

/-- Area-noise collection over a population. -/
def noise_by_area (pop : List Reading) : List AreaRow :=
  analysis.groupByArea (·.noise_db) pop

/-- Hourly-traffic collection over a population. -/
def traffic_by_hour (pop : List Reading) : Except String (List HourRow) :=
  match analysis.toDates pop with
  | .error e => .error e
  | .ok pairs => .ok (analysis.groupByHour pairs)

/-- Abnormal-readings collection over a population. -/
def abnormal_list (pop : List Reading) : List Reading :=
  (List.insertionSort tsLE (pop.filter abnormalPred)).take 1000

/-- Every dashboard value, computed from one population. -/
def refresh (pop : List Reading) : app.Refresh :=
  { avg_pm := avg_pm25 pop
    worst := worst_pollution_area pop
    peak := peak_traffic_hour pop
    noisiest := noisiest_area pop
    abnormal_cnt := abnormal_count pop
    area_pm := area_pm pop
    noise_by_area := noise_by_area pop
    traffic_by_hour := traffic_by_hour pop
    abnormal := abnormal_list pop }

end population

/- Helper lemmas about the embedded stages. -/

theorem filter_and_swap (p q : Reading → Bool) (l : List Reading) :
    l.filter (fun a => p a && q a) = (l.filter q).filter p := by
  induction l with
  | nil => rfl
  | cons a l ih =>
    by_cases hp : p a = true <;> by_cases hq : q a = true <;>
      simp only [List.filter_cons, hp, hq, Bool.and_true, Bool.and_false, Bool.true_and,
        Bool.false_and, Bool.not_eq_true, if_true, if_false, ite_true, ite_false, ih,
        Bool.eq_false_iff]
    all_goals rfl

theorem filter_replicate_pos {α : Type} (p : α → Bool) (a : α) (h : p a = true) (n : Nat) :
    (List.replicate n a).filter p = List.replicate n a := by
  induction n with
  | zero => rfl
  | succ n ih => simp [List.replicate_succ, List.filter_cons, h, ih]

theorem groupByArea_map_area (field : Reading → Option Int) (docs : List Reading) :
    (analysis.groupByArea field docs).map (·.area) = (docs.map (·.area)).dedup := by
  unfold analysis.groupByArea
  rw [List.map_map]
  exact List.map_id _

theorem groupByArea_nodup (field : Reading → Option Int) (docs : List Reading) :
    ((analysis.groupByArea field docs).map (·.area)).Nodup := by
  rw [groupByArea_map_area]
  exact List.nodup_dedup _

theorem groupByArea_mem_iff (field : Reading → Option Int) (docs : List Reading) (a : String) :
    a ∈ (analysis.groupByArea field docs).map (·.area) ↔ ∃ r ∈ docs, r.area = a := by
  rw [groupByArea_map_area, List.mem_dedup, List.mem_map]

theorem groupByArea_mem_metric {field : Reading → Option Int} {docs : List Reading}
    {row : AreaRow} (h : row ∈ analysis.groupByArea field docs) :
    row.metric = (mean? ((docs.filter (fun r => r.area == row.area)).filterMap field)).map round2 := by
  unfold analysis.groupByArea at h
  obtain ⟨a, _, rfl⟩ := List.mem_map.mp h
  rfl

theorem groupByHour_map_hour (pairs : List (Nat × Option Int)) :
    (analysis.groupByHour pairs).map (·.hour) = (pairs.map (·.1)).dedup := by
  unfold analysis.groupByHour
  rw [List.map_map]
  exact List.map_id _

theorem groupByHour_nodup (pairs : List (Nat × Option Int)) :
    ((analysis.groupByHour pairs).map (·.hour)).Nodup := by
  rw [groupByHour_map_hour]
  exact List.nodup_dedup _

theorem groupByHour_mem_iff (pairs : List (Nat × Option Int)) (h : Nat) :
    h ∈ (analysis.groupByHour pairs).map (·.hour) ↔ ∃ p ∈ pairs, p.1 = h := by
  rw [groupByHour_map_hour, List.mem_dedup, List.mem_map]

theorem groupByHour_mem_metric {pairs : List (Nat × Option Int)} {row : HourRow}
    (h : row ∈ analysis.groupByHour pairs) :
    row.metric = (mean? ((pairs.filter (fun p => p.1 == row.hour)).filterMap (·.2))).map round2 := by
  unfold analysis.groupByHour at h
  obtain ⟨a, _, rfl⟩ := List.mem_map.mp h
  rfl

theorem toDates_cons_ok {r : Reading} {rs : List Reading} {ps : List (Nat × Option Int)}
    (h : analysis.toDates (r :: rs) = .ok ps) :
    ∃ p ps', analysis.toDateHour r = .ok p ∧ analysis.toDates rs = .ok ps' ∧ ps = p :: ps' := by
  unfold analysis.toDates at h
  cases h1 : analysis.toDateHour r with
  | error e => rw [h1] at h; cases h
  | ok p =>
    rw [h1] at h
    cases h2 : analysis.toDates rs with
    | error e => rw [h2] at h; cases h
    | ok ps' => rw [h2] at h; cases h; exact ⟨p, ps', rfl, rfl, rfl⟩

theorem toDates_mem_iff {docs : List Reading} {ps : List (Nat × Option Int)}
    (h : analysis.toDates docs = .ok ps) (p : Nat × Option Int) :
    p ∈ ps ↔ ∃ r ∈ docs, analysis.toDateHour r = .ok p := by
  induction docs generalizing ps with
  | nil =>
    unfold analysis.toDates at h
    cases h
    simp
  | cons r rs ih =>
    obtain ⟨q, ps', h1, h2, rfl⟩ := toDates_cons_ok h
    rw [List.mem_cons]
    constructor
    · rintro (rfl | hp)
      · exact ⟨r, List.mem_cons_self r rs, h1⟩
      · obtain ⟨s, hs, hok⟩ := (ih h2).mp hp
        exact ⟨s, List.mem_cons_of_mem r hs, hok⟩
    · rintro ⟨s, hs, hok⟩
      rcases List.mem_cons.mp hs with rfl | hs'
      · left
        rw [h1] at hok
        cases hok
        rfl
      · right
        exact (ih h2).mpr ⟨s, hs', hok⟩

theorem toDates_error_of_mem {docs : List Reading} {r : Reading} (hr : r ∈ docs)
    (hbad : parseHour? r.timestamp = none) :
    ∃ e, analysis.toDates docs = .error e := by
  induction docs with
  | nil => cases hr
  | cons s rs ih =>
    unfold analysis.toDates
    cases h1 : analysis.toDateHour s with
    | error e => exact ⟨e, rfl⟩
    | ok p =>
      rcases List.mem_cons.mp hr with rfl | hr'
      · unfold analysis.toDateHour at h1
        rw [hbad] at h1
        cases h1
      · obtain ⟨e, he⟩ := ih hr'
        rw [he]
        exact ⟨e, rfl⟩

theorem hourWithOffset_lt (h mi : Nat) (off : Int) : hourWithOffset h mi off < 24 := by
  unfold hourWithOffset
  have h1 : (0:Int) < 1440 := by norm_num
  have h2 := Int.emod_lt_of_pos (((h : Int) * 60 + (mi : Int)) - off) h1
  have h3 := Int.emod_nonneg (((h : Int) * 60 + (mi : Int)) - off) (by norm_num : (1440:Int) ≠ 0)
  have h4 : ((((h : Int) * 60 + (mi : Int)) - off) % 1440).toNat < 1440 := by omega
  omega

theorem parseHour?_lt {s : String} {h : Nat} (hp : parseHour? s = some h) : h < 24 := by
  unfold parseHour? at hp
  split at hp
  · simp only [Option.bind_eq_bind, Option.bind_eq_some] at hp
    obtain ⟨_, _, _, _, ⟨mo, hmo, dy, hdy, hh, hhh, mi, hmi, off, hoff, hfin⟩⟩ := hp
    split at hfin
    · cases hfin
      exact hourWithOffset_lt _ _ _
    · cases hfin
  · cases hp

/- Concrete readings used in concrete evaluations. -/

def rSpike101 : Reading := ⟨"s-a", "City Center", "2024-01-01T10:00:00", some 10, some 10, some 101⟩

def rExactly100 : Reading := ⟨"s-b", "City Center", "2024-01-01T11:00:00", some 10, some 10, some 100⟩

def rSpike151 : Reading := ⟨"s-c", "Industrial Zone", "2024-01-02T10:00:00", some 10, some 10, some 151⟩

def rGoodTs : Reading := ⟨"s-d", "Park Area", "2025-01-01T08:00:00", some 60, some 100, some 50⟩

def rBadTs : Reading := ⟨"s-e", "Park Area", "not-a-date", some 60, some 100, some 50⟩

def rAreaB : Reading := ⟨"s-f", "B", "2025-01-01T08:00:00", some 1, some 1, some 1⟩

def rAreaA : Reading := ⟨"s-g", "A", "2025-01-01T09:00:00", some 2, some 2, some 2⟩

def rAllNone : Reading := ⟨"s-h", "Market Area", "2025-01-01T08:00:00", none, none, none⟩

def rNormal : Reading := ⟨"s-i", "Park Area", "2025-01-01T08:00:00", some 40, some 20, some 30⟩

theorem get_abnormal_count_eq (sel : List String) (docs : List Reading) :
    app.get_abnormal_count sel docs =
      (docs.filter (fun r => abnormalPred r && app.matchArea sel r)).length := by
  simp only [app.get_abnormal_count]
  by_cases h : (docs.filter (fun r => abnormalPred r && app.matchArea sel r)).isEmpty
  · simp [h, List.isEmpty_iff.mp h]
  · simp [h]

/-- C1: the abnormal-readings operation returns exactly the projected
readings satisfying `noise_db > 85 OR traffic_count > 150 OR pm25 > 100`,
an OR of strict comparisons against the fixed constants 85, 150, 100
(stated whenever at most 1000 readings match, so that the listing's UI cap
does not truncate; every returned row satisfies the predicate
unconditionally); a reading with `pm25 = 101` and the other fields below
threshold is included, one with `pm25 = 100` exactly is excluded. -/
theorem C1_abnormal_or_of_thresholds :
    (∀ docs r, r ∈ analysis.abnormal_readings docs → r ∈ docs ∧ abnormalPred r = true) ∧
    (∀ docs, (docs.filter abnormalPred).length ≤ 1000 →
      ∀ r, r ∈ analysis.abnormal_readings docs ↔ (r ∈ docs ∧ abnormalPred r = true)) ∧
    (∀ sid a ts n t p, abnormalPred ⟨sid, a, ts, some n, some t, some p⟩ = true ↔
      (85 < n ∨ 150 < t ∨ 100 < p)) ∧
    analysis.abnormal_readings [rSpike101] = [rSpike101] ∧
    analysis.abnormal_readings [rExactly100] = [] := by
  refine ⟨?_, ?_, ?_, by decide, by decide⟩
  · intro docs r hr
    have h1 : r ∈ List.insertionSort tsLE (docs.filter abnormalPred) :=
      List.take_subset _ _ hr
    have h2 := (List.mem_insertionSort tsLE).mp h1
    exact ⟨(List.mem_filter.mp h2).1, (List.mem_filter.mp h2).2⟩
  · intro docs hlen r
    unfold analysis.abnormal_readings
    rw [List.take_of_length_le (by rwa [List.length_insertionSort])]
    rw [List.mem_insertionSort, List.mem_filter]
  · intro sid a ts n t p
    simp [abnormalPred, or_assoc]

/-- Witness for C1: at a two-reading store the cap hypothesis holds and the
membership equivalence follows by applying the theorem. -/
theorem C1_abnormal_or_of_thresholds_witness :
    (([rSpike101, rExactly100].filter abnormalPred).length ≤ 1000) ∧
    (rSpike101 ∈ analysis.abnormal_readings [rSpike101, rExactly100] ↔
      (rSpike101 ∈ [rSpike101, rExactly100] ∧ abnormalPred rSpike101 = true)) :=
  ⟨by decide, C1_abnormal_or_of_thresholds.2.1 [rSpike101, rExactly100] (by decide) rSpike101⟩

/-- C2: the abnormal-count KPI equals the uncapped number of readings
matching the abnormal predicate under the active filter, while the
abnormal listing is the earliest-1000-by-ascending-timestamp prefix of the
matches (hence at most 1000 rows, sorted); with 1500 qualifying readings
the count KPI is 1500 and the listing has exactly 1000 rows. -/
theorem C2_count_ignores_cap :
    (∀ sel docs, app.get_abnormal_count sel docs =
      (docs.filter (fun r => abnormalPred r && app.matchArea sel r)).length) ∧
    (∀ sel docs, (app.abnormal sel docs).length =
      min 1000 (docs.filter (fun r => abnormalPred r && app.matchArea sel r)).length) ∧
    (∀ sel docs, app.abnormal sel docs =
      (List.insertionSort tsLE
        (docs.filter (fun r => abnormalPred r && app.matchArea sel r))).take 1000) ∧
    (∀ sel docs, List.Sorted tsLE (app.abnormal sel docs)) ∧
    app.get_abnormal_count [] (List.replicate 1500 rSpike151) = 1500 ∧
    (app.abnormal [] (List.replicate 1500 rSpike151)).length = 1000 := by
  have hlen : ∀ sel docs, (app.abnormal sel docs).length =
      min 1000 (docs.filter (fun r => abnormalPred r && app.matchArea sel r)).length := by
    intro sel docs
    unfold app.abnormal
    rw [List.length_take, List.length_insertionSort]
  have hrep : (List.replicate 1500 rSpike151).filter
      (fun r => abnormalPred r && app.matchArea [] r) = List.replicate 1500 rSpike151 :=
    filter_replicate_pos _ _ (by decide) 1500
  refine ⟨get_abnormal_count_eq, hlen, fun sel docs => rfl, ?_, ?_, ?_⟩
  · intro sel docs
    exact (List.sorted_insertionSort tsLE _).sublist (List.take_sublist _ _)
  · rw [get_abnormal_count_eq, hrep, List.length_replicate]
  · rw [hlen, hrep, List.length_replicate]
    omega

/-- C10: when no reading matches the abnormal predicate under the active
filter the abnormal-count KPI returns the integer 0 (its result type in
the model is `Nat`, mirroring that the code always produces a
non-negative `int`, never `None`), unlike the other four KPIs, which
signal an empty population with `None`-valued results. -/
theorem C10_abnormal_count_zero (sel : List String) (docs : List Reading)
    (h : docs.filter (fun r => abnormalPred r && app.matchArea sel r) = []) :
    app.get_abnormal_count sel docs = 0 ∧
    app.get_abnormal_count sel [] = 0 ∧
    app.get_avg_pm25 sel [] = none ∧
    app.get_worst_pollution_area sel [] = (none, none) ∧
    app.get_peak_traffic_hour sel [] = .ok (none, none) ∧
    app.get_noisiest_area sel [] = (none, none) := by
  refine ⟨?_, rfl, rfl, rfl, rfl, rfl⟩
  rw [get_abnormal_count_eq, h]
  rfl

/-- Witness for C10: a store whose single reading is below every threshold
has abnormal count 0 while the four other KPIs of the empty store are
absent values. -/
theorem C10_abnormal_count_zero_witness :
    app.get_abnormal_count ["Park Area"] [rNormal] = 0 ∧
    app.get_abnormal_count ["Park Area"] [] = 0 ∧
    app.get_avg_pm25 ["Park Area"] [] = none ∧
    app.get_worst_pollution_area ["Park Area"] [] = (none, none) ∧
    app.get_peak_traffic_hour ["Park Area"] [] = .ok (none, none) ∧
    app.get_noisiest_area ["Park Area"] [] = (none, none) :=
  C10_abnormal_count_zero ["Park Area"] [rNormal] (by decide)

theorem toDateHour_ok_hour {r : Reading} {h : Nat} {t : Option Int}
    (hok : analysis.toDateHour r = .ok (h, t)) :
    parseHour? r.timestamp = some h ∧ t = r.traffic_count := by
  unfold analysis.toDateHour at hok
  cases hp : parseHour? r.timestamp with
  | none => rw [hp] at hok; cases hok
  | some h' => rw [hp] at hok; cases hok; exact ⟨rfl, rfl⟩

instance : DecidableEq (Except String (List HourRow)) := fun a b =>
  match a, b with
  | .error e, .error f =>
    if h : e = f then isTrue (by rw [h]) else isFalse (by simp [h])
  | .ok x, .ok y =>
    if h : x = y then isTrue (by rw [h]) else isFalse (by simp [h])
  | .error _, .ok _ => isFalse (by simp)
  | .ok _, .error _ => isFalse (by simp)

def exceptHoursIsError : Except String (List HourRow) → Bool
  | .ok _ => false
  | .error _ => true

def exceptPeakIsError : Except String (Option Nat × Option Rat) → Bool
  | .ok _ => false
  | .error _ => true

attribute [local semireducible] Rat.inv Rat.mul Rat.add Rat.sub in
/-- Counterexample to C3 as stated: `$toDate` raises a conversion failure
on an unparsable timestamp string, so on a store holding one parsable and
one unparsable reading the hourly aggregation aborts with an error instead
of returning the result over the remaining reading (shown second: the
result the claim expected the two-reading store to produce). -/
theorem C3_counterexample :
    analysis.traffic_density_by_hour [rGoodTs, rBadTs] =
      Except.error ("conversion failure: cannot convert not-a-date to date") ∧
    analysis.traffic_density_by_hour [rGoodTs] = Except.ok [⟨8, some 100⟩] := by
  constructor
  · decide
  · decide

/-- C3 (amended): a reading whose timestamp string is unparsable is not
excluded per-record — it aborts the whole hourly traffic aggregation (and,
when it survives the area filter, the dashboard hourly pipeline and the
peak-traffic-hour KPI) with a conversion error. -/
theorem C3_unparsable_timestamp_aborts (docs : List Reading) (r : Reading)
    (hr : r ∈ docs) (hbad : parseHour? r.timestamp = none) :
    (∃ e, analysis.traffic_density_by_hour docs = .error e) ∧
    (∀ sel, app.matchArea sel r = true →
      (∃ e, app.traffic_by_hour sel docs = .error e) ∧
      (∃ e, app.get_peak_traffic_hour sel docs = .error e)) := by
  obtain ⟨e, he⟩ := toDates_error_of_mem hr hbad
  constructor
  · exact ⟨e, by unfold analysis.traffic_density_by_hour; rw [he]⟩
  · intro sel hsel
    have hr' : r ∈ docs.filter (app.matchArea sel) := List.mem_filter.mpr ⟨hr, hsel⟩
    obtain ⟨e', he'⟩ := toDates_error_of_mem hr' hbad
    exact ⟨⟨e', by unfold app.traffic_by_hour; rw [he']⟩,
      ⟨e', by unfold app.get_peak_traffic_hour; rw [he']⟩⟩

/-- Witness for C3 (amended): the two-reading store with one unparsable
timestamp makes both the hourly aggregation and the peak-hour KPI error. -/
theorem C3_unparsable_timestamp_aborts_witness :
    exceptHoursIsError (analysis.traffic_density_by_hour [rGoodTs, rBadTs]) = true ∧
    exceptPeakIsError (app.get_peak_traffic_hour [] [rGoodTs, rBadTs]) = true := by
  have h := C3_unparsable_timestamp_aborts [rGoodTs, rBadTs] rBadTs (by decide) (by decide)
  obtain ⟨⟨e, he⟩, h2⟩ := h
  obtain ⟨⟨e1, he1⟩, ⟨e2, he2⟩⟩ := h2 [] rfl
  constructor
  · rw [he]; rfl
  · rw [he2]; rfl

attribute [local semireducible] Rat.inv Rat.mul Rat.add Rat.sub in
/-- Counterexample to C4 as stated: the dashboard's inline `area_pm`
pipeline (app.py) has no `$sort` stage, so its rows are not ordered
ascending by area name: on the store `[rAreaB, rAreaA]` the emitted areas
are `["B", "A"]`. -/
theorem C4_counterexample :
    (app.area_pm [] [rAreaB, rAreaA]).map (·.area) = ["B", "A"] ∧
    ¬ List.Sorted areaRowLE (app.area_pm [] [rAreaB, rAreaA]) := by
  constructor
  · decide
  · decide

/-- C4 (amended): the analytics-module area aggregations have exactly one
row per distinct area with at least one matching reading and are sorted
ascending by area; the analytics-module hourly aggregation has exactly one
row per populated hour (each in 0–23) and is sorted ascending by hour; the
dashboard's inline pipelines also have exactly one row per distinct key of
the filtered population, but carry no key ordering (their `$sort` stage is
absent; display-side ranking happens later). -/
theorem C4_grouped_results (docs : List Reading) (sel : List String) :
    List.Sorted areaRowLE (analysis.area_wise_avg_pm25 docs) ∧
    ((analysis.area_wise_avg_pm25 docs).map (·.area)).Nodup ∧
    (∀ a, a ∈ (analysis.area_wise_avg_pm25 docs).map (·.area) ↔ ∃ r ∈ docs, r.area = a) ∧
    List.Sorted areaRowLE (analysis.avg_noise_by_area docs) ∧
    ((analysis.avg_noise_by_area docs).map (·.area)).Nodup ∧
    (∀ a, a ∈ (analysis.avg_noise_by_area docs).map (·.area) ↔ ∃ r ∈ docs, r.area = a) ∧
    (∀ rows, analysis.traffic_density_by_hour docs = .ok rows →
      List.Sorted hourRowLE rows ∧
      (rows.map (·.hour)).Nodup ∧
      (∀ h, h ∈ rows.map (·.hour) ↔ ∃ r ∈ docs, ∃ t, analysis.toDateHour r = .ok (h, t)) ∧
      (∀ row ∈ rows, row.hour < 24)) ∧
    ((app.area_pm sel docs).map (·.area)).Nodup ∧
    (∀ a, a ∈ (app.area_pm sel docs).map (·.area) ↔
      ∃ r ∈ docs.filter (app.matchArea sel), r.area = a) ∧
    ((app.noise_by_area sel docs).map (·.area)).Nodup ∧
    (∀ a, a ∈ (app.noise_by_area sel docs).map (·.area) ↔
      ∃ r ∈ docs.filter (app.matchArea sel), r.area = a) ∧
    (∀ pairs, analysis.toDates (docs.filter (app.matchArea sel)) = .ok pairs →
      app.traffic_by_hour sel docs = .ok (analysis.groupByHour pairs) ∧
      ((analysis.groupByHour pairs).map (·.hour)).Nodup ∧
      (∀ h, h ∈ (analysis.groupByHour pairs).map (·.hour) ↔
        ∃ r ∈ docs.filter (app.matchArea sel), ∃ t, analysis.toDateHour r = .ok (h, t))) := by
  have hpermPm := (List.perm_insertionSort areaRowLE (analysis.groupByArea (·.pm25) docs)).map
    (fun row : AreaRow => row.area)
  have hpermNoise := (List.perm_insertionSort areaRowLE (analysis.groupByArea (·.noise_db) docs)).map
    (fun row : AreaRow => row.area)
  refine ⟨List.sorted_insertionSort areaRowLE _,
    hpermPm.nodup_iff.mpr (groupByArea_nodup _ _),
    fun a => (hpermPm.mem_iff).trans (groupByArea_mem_iff _ _ a),
    List.sorted_insertionSort areaRowLE _,
    hpermNoise.nodup_iff.mpr (groupByArea_nodup _ _),
    fun a => (hpermNoise.mem_iff).trans (groupByArea_mem_iff _ _ a),
    ?_, ?_, ?_, ?_, ?_, ?_⟩
  · intro rows hok
    unfold analysis.traffic_density_by_hour at hok
    cases hd : analysis.toDates docs with
    | error e => rw [hd] at hok; cases hok
    | ok pairs =>
      rw [hd] at hok
      cases hok
      have hperm := (List.perm_insertionSort hourRowLE (analysis.groupByHour pairs)).map
        (fun row : HourRow => row.hour)
      refine ⟨List.sorted_insertionSort hourRowLE _,
        hperm.nodup_iff.mpr (groupByHour_nodup _), ?_, ?_⟩
      · intro h
        rw [hperm.mem_iff, groupByHour_mem_iff]
        constructor
        · rintro ⟨p, hp, rfl⟩
          obtain ⟨r, hrd, hrok⟩ := (toDates_mem_iff hd p).mp hp
          exact ⟨r, hrd, p.2, by rwa [← Prod.mk.eta (p := p)]⟩
        · rintro ⟨r, hrd, t, hrok⟩
          exact ⟨(h, t), (toDates_mem_iff hd (h, t)).mpr ⟨r, hrd, hrok⟩, rfl⟩
      · intro row hrow
        have : row.hour ∈ (List.insertionSort hourRowLE (analysis.groupByHour pairs)).map
            (fun row : HourRow => row.hour) := List.mem_map.mpr ⟨row, hrow, rfl⟩
        rw [hperm.mem_iff, groupByHour_mem_iff] at this
        obtain ⟨p, hp, hp1⟩ := this
        obtain ⟨r, _, hrok⟩ := (toDates_mem_iff hd p).mp hp
        have := (toDateHour_ok_hour (by rwa [← Prod.mk.eta (p := p)] at hrok)).1
        exact hp1 ▸ parseHour?_lt this
  · exact groupByArea_nodup _ _
  · intro a
    exact groupByArea_mem_iff _ _ a
  · exact groupByArea_nodup _ _
  · intro a
    exact groupByArea_mem_iff _ _ a
  · intro pairs hok
    refine ⟨?_, groupByHour_nodup _, ?_⟩
    · unfold app.traffic_by_hour
      rw [hok]
    · intro h
      rw [groupByHour_mem_iff]
      constructor
      · rintro ⟨p, hp, rfl⟩
        obtain ⟨r, hrd, hrok⟩ := (toDates_mem_iff hok p).mp hp
        exact ⟨r, hrd, p.2, by rwa [← Prod.mk.eta (p := p)]⟩
      · rintro ⟨r, hrd, t, hrok⟩
        exact ⟨(h, t), (toDates_mem_iff hok (h, t)).mpr ⟨r, hrd, hrok⟩, rfl⟩

attribute [local semireducible] Rat.inv Rat.mul Rat.add Rat.sub in
/-- Witness for C4 (amended): concrete instantiations — the sorted
analytics results on a two-area store, and the hourly conjunct discharged
at the concrete one-reading store whose pipeline yields hour 8. -/
theorem C4_grouped_results_witness :
    List.Sorted areaRowLE (analysis.area_wise_avg_pm25 [rAreaB, rAreaA]) ∧
    List.Sorted hourRowLE [HourRow.mk 8 (some 100)] ∧
    (HourRow.mk 8 (some 100)).hour < 24 := by
  have h1 := (C4_grouped_results [rAreaB, rAreaA] []).1
  have h2 := (C4_grouped_results [rGoodTs] []).2.2.2.2.2.2.1
    [HourRow.mk 8 (some 100)] (by decide)
  exact ⟨h1, h2.1, h2.2.2.2 (HourRow.mk 8 (some 100)) (by decide)⟩

theorem refresh_factor (sel : List String) (docs : List Reading) :
    app.refresh sel docs = population.refresh (docs.filter (app.matchArea sel)) := by
  have habn := filter_and_swap abnormalPred (app.matchArea sel) docs
  unfold app.refresh population.refresh
  unfold app.get_avg_pm25 app.get_worst_pollution_area app.get_peak_traffic_hour
    app.get_noisiest_area app.get_abnormal_count app.area_pm app.noise_by_area
    app.traffic_by_hour app.abnormal
  unfold population.avg_pm25 population.worst_pollution_area population.peak_traffic_hour
    population.noisiest_area population.abnormal_count population.area_pm
    population.noise_by_area population.traffic_by_hour population.abnormal_list
  rw [habn]

/-- C5: for every dashboard refresh, the composed area filter is applied
unmodified to every aggregation and KPI pipeline, so all four result
collections and all five KPIs are functions of the one filtered
population. -/
theorem C5_uniform_population (sel : List String) (docs : List Reading) :
    app.refresh sel docs = population.refresh (docs.filter (app.matchArea sel)) :=
  refresh_factor sel docs

/-- C6: when the filtered population is empty, every aggregation returns
an empty sequence and every KPI a well-formed absent value: the global
average is `None` and each top-1 KPI is the pair `(None, None)`. -/
theorem C6_empty_population (sel : List String) (docs : List Reading)
    (h : docs.filter (app.matchArea sel) = []) :
    app.area_pm sel docs = [] ∧
    app.noise_by_area sel docs = [] ∧
    app.traffic_by_hour sel docs = .ok [] ∧
    app.abnormal sel docs = [] ∧
    app.get_avg_pm25 sel docs = none ∧
    app.get_worst_pollution_area sel docs = (none, none) ∧
    app.get_peak_traffic_hour sel docs = .ok (none, none) ∧
    app.get_noisiest_area sel docs = (none, none) := by
  have h2 : docs.filter (fun r => abnormalPred r && app.matchArea sel r) = [] := by
    rw [filter_and_swap, h]
    rfl
  refine ⟨?_, ?_, ?_, ?_, ?_, ?_, ?_, ?_⟩
  · unfold app.area_pm
    rw [h]
    rfl
  · unfold app.noise_by_area
    rw [h]
    rfl
  · unfold app.traffic_by_hour
    rw [h]
    rfl
  · unfold app.abnormal
    rw [h2]
    rfl
  · unfold app.get_avg_pm25
    rw [h]
    rfl
  · unfold app.get_worst_pollution_area
    rw [h]
    rfl
  · unfold app.get_peak_traffic_hour
    rw [h]
    rfl
  · unfold app.get_noisiest_area
    rw [h]
    rfl

/-- Witness for C6: a selection disjoint from the store's areas filters
the population to empty, and every operation returns its absent value. -/
theorem C6_empty_population_witness :
    [rAreaA].filter (app.matchArea ["Nowhere"]) = [] ∧
    (app.area_pm ["Nowhere"] [rAreaA] = [] ∧
     app.noise_by_area ["Nowhere"] [rAreaA] = [] ∧
     app.traffic_by_hour ["Nowhere"] [rAreaA] = .ok [] ∧
     app.abnormal ["Nowhere"] [rAreaA] = [] ∧
     app.get_avg_pm25 ["Nowhere"] [rAreaA] = none ∧
     app.get_worst_pollution_area ["Nowhere"] [rAreaA] = (none, none) ∧
     app.get_peak_traffic_hour ["Nowhere"] [rAreaA] = .ok (none, none) ∧
     app.get_noisiest_area ["Nowhere"] [rAreaA] = (none, none)) :=
  ⟨by decide, C6_empty_population ["Nowhere"] [rAreaA] (by decide)⟩

/-- C7: composing the filter from an empty area selection matches every
reading, so a refresh under the empty selection computes exactly what a
refresh under the full list of known areas computes. -/
theorem C7_empty_selection_is_select_all (docs : List Reading) :
    app.refresh [] docs = app.refresh (app._get_distinct_areas docs) docs := by
  have h1 : docs.filter (app.matchArea []) = docs := by
    apply List.filter_eq_self.mpr
    intro r _
    rfl
  have h2 : docs.filter (app.matchArea (app._get_distinct_areas docs)) = docs := by
    apply List.filter_eq_self.mpr
    intro r hr
    unfold app.matchArea
    by_cases hempty : (app._get_distinct_areas docs).isEmpty
    · simp [hempty]
    · simp only [hempty, Bool.false_eq_true, if_false]
      rw [List.elem_iff]
      unfold app._get_distinct_areas
      rw [List.mem_insertionSort, List.mem_dedup]
      exact List.mem_map.mpr ⟨r, hr, rfl⟩
  rw [refresh_factor [] docs, refresh_factor _ docs, h1, h2]

theorem fract_mul_den (q : Rat) :
    (q.num : Rat) - (⌊q⌋ : Rat) * (q.den : Rat) = Int.fract q * (q.den : Rat) := by
  have hfr : Int.fract q = q - (⌊q⌋ : Rat) := rfl
  have hdenQ : (0 : Rat) < (q.den : Rat) := by exact_mod_cast q.pos
  have hq : q * (q.den : Rat) = (q.num : Rat) := by
    nth_rewrite 1 [← Rat.num_div_den q]
    rw [div_mul_cancel₀ _ (ne_of_gt hdenQ)]
  rw [hfr, sub_mul, hq]

theorem roundHalfEven_floor_form (q : Rat) :
    roundHalfEven q =
      if Int.fract q < 1 / 2 then ⌊q⌋
      else if 1 / 2 < Int.fract q then ⌊q⌋ + 1
      else if ⌊q⌋ % 2 = 0 then ⌊q⌋ else ⌊q⌋ + 1 := by
  have hfl : q.num / (q.den : Int) = ⌊q⌋ := (Rat.floor_def).symm
  have hdenQ : (0 : Rat) < (q.den : Rat) := by exact_mod_cast q.pos
  have h1 : (2 * (q.num - ⌊q⌋ * (q.den : Int)) < (q.den : Int)) ↔ Int.fract q < 1 / 2 := by
    have hcast : ∀ x y : Int, ((x : Rat) < (y : Rat)) ↔ x < y := fun x y => by
      exact_mod_cast Iff.rfl
    rw [← hcast]
    push_cast
    rw [fract_mul_den]
    constructor
    · intro h
      by_contra hc
      push_neg at hc
      have h2 : (1 : Rat) * (q.den : Rat) ≤ (2 * Int.fract q) * (q.den : Rat) :=
        mul_le_mul_of_nonneg_right (by linarith) (le_of_lt hdenQ)
      nlinarith
    · intro h
      have h2 : (2 * Int.fract q) * (q.den : Rat) < 1 * (q.den : Rat) :=
        mul_lt_mul_of_pos_right (by linarith) hdenQ
      nlinarith
  have h2 : ((q.den : Int) < 2 * (q.num - ⌊q⌋ * (q.den : Int))) ↔ 1 / 2 < Int.fract q := by
    have hcast : ∀ x y : Int, ((x : Rat) < (y : Rat)) ↔ x < y := fun x y => by
      exact_mod_cast Iff.rfl
    rw [← hcast]
    push_cast
    rw [fract_mul_den]
    constructor
    · intro h
      by_contra hc
      push_neg at hc
      have h2 : (2 * Int.fract q) * (q.den : Rat) ≤ 1 * (q.den : Rat) :=
        mul_le_mul_of_nonneg_right (by linarith) (le_of_lt hdenQ)
      nlinarith
    · intro h
      have h2 : (1 : Rat) * (q.den : Rat) < (2 * Int.fract q) * (q.den : Rat) :=
        mul_lt_mul_of_pos_right (by linarith) hdenQ
      nlinarith
  simp only [roundHalfEven, hfl, h1, h2]

theorem roundHalfEven_close (q : Rat) :
    |(roundHalfEven q : Rat) - q| ≤ 1 / 2 ∧
    (|(roundHalfEven q : Rat) - q| = 1 / 2 → roundHalfEven q % 2 = 0) := by
  have hf0 : (0 : Rat) ≤ Int.fract q := Int.fract_nonneg q
  have hf1 : Int.fract q < 1 := Int.fract_lt_one q
  have hfr : Int.fract q = q - (⌊q⌋ : Rat) := rfl
  rw [roundHalfEven_floor_form q]
  by_cases h1 : Int.fract q < 1 / 2
  · rw [if_pos h1]
    have e1 : ((⌊q⌋ : Rat)) - q = -(Int.fract q) := by rw [hfr]; ring
    rw [e1, abs_neg, abs_of_nonneg hf0]
    exact ⟨by linarith, fun h => absurd h (by linarith)⟩
  · rw [if_neg h1]
    by_cases h2 : 1 / 2 < Int.fract q
    · rw [if_pos h2]
      have e2 : (((⌊q⌋ + 1 : Int) : Rat)) - q = 1 - Int.fract q := by
        push_cast
        rw [hfr]
        ring
      rw [e2, abs_of_nonneg (by linarith)]
      exact ⟨by linarith, fun h => absurd h (by linarith)⟩
    · rw [if_neg h2]
      have heq : Int.fract q = 1 / 2 := le_antisymm (not_lt.mp h2) (not_lt.mp h1)
      by_cases h3 : ⌊q⌋ % 2 = 0
      · rw [if_pos h3]
        have e1 : ((⌊q⌋ : Rat)) - q = -(Int.fract q) := by rw [hfr]; ring
        rw [e1, abs_neg, abs_of_nonneg hf0, heq]
        exact ⟨le_refl _, fun _ => h3⟩
      · rw [if_neg h3]
        have e2 : (((⌊q⌋ + 1 : Int) : Rat)) - q = 1 - Int.fract q := by
          push_cast
          rw [hfr]
          ring
        rw [e2, abs_of_nonneg (by linarith), heq]
        refine ⟨by norm_num, fun _ => ?_⟩
        have := Int.emod_two_eq ⌊q⌋
        omega

theorem get_avg_pm25_eq (sel : List String) (docs : List Reading) :
    app.get_avg_pm25 sel docs =
      (mean? ((docs.filter (app.matchArea sel)).filterMap (·.pm25))).map round2 := by
  simp only [app.get_avg_pm25]
  by_cases h : (docs.filter (app.matchArea sel)).isEmpty
  · rw [List.isEmpty_iff] at h
    rw [h]
    simp [mean?]
  · simp [h]

attribute [local semireducible] Rat.inv Rat.mul Rat.add Rat.sub in
/-- C8: one rounding law for every averaged metric: each rounded value in
the four aggregation operations and in the global-average KPI is the exact
arithmetic mean passed through the single function `round2`
(`roundHalfEven` of 100 times the value, divided by 100), and
`roundHalfEven` is correct round-half-to-even rounding: it moves a value
by at most one half, and moves an exact tie to the even integer — so
2.005 rounds to 2 and 2.015 rounds to 2.02. -/
theorem C8_single_rounding_law :
    (∀ q : Rat, |(roundHalfEven q : Rat) - q| ≤ 1 / 2 ∧
      (|(roundHalfEven q : Rat) - q| = 1 / 2 → roundHalfEven q % 2 = 0)) ∧
    (∀ q : Rat, round2 q = (roundHalfEven (q * 100) : Rat) / 100) ∧
    (∀ docs row, row ∈ analysis.area_wise_avg_pm25 docs →
      row.metric =
        (mean? ((docs.filter (fun r => r.area == row.area)).filterMap (·.pm25))).map round2) ∧
    (∀ docs row, row ∈ analysis.avg_noise_by_area docs →
      row.metric =
        (mean? ((docs.filter (fun r => r.area == row.area)).filterMap (·.noise_db))).map round2) ∧
    (∀ pairs row, row ∈ analysis.groupByHour pairs →
      row.metric =
        (mean? ((pairs.filter (fun p => p.1 == row.hour)).filterMap (·.2))).map round2) ∧
    (∀ sel docs, app.get_avg_pm25 sel docs =
      (mean? ((docs.filter (app.matchArea sel)).filterMap (·.pm25))).map round2) ∧
    round2 (2005 / 1000) = 2 ∧ round2 (2015 / 1000) = 202 / 100 := by
  refine ⟨roundHalfEven_close, fun q => rfl, ?_, ?_,
    fun pairs row h => groupByHour_mem_metric h, get_avg_pm25_eq, by decide, by decide⟩
  · intro docs row h
    exact groupByArea_mem_metric ((List.mem_insertionSort areaRowLE).mp h)
  · intro docs row h
    exact groupByArea_mem_metric ((List.mem_insertionSort areaRowLE).mp h)

attribute [local semireducible] Rat.inv Rat.mul Rat.add Rat.sub in
/-- Witness for C8: the membership hypotheses discharged at a one-reading
store, whose single area row carries the rounded mean of its values. -/
theorem C8_single_rounding_law_witness :
    (AreaRow.mk "A" (some 2)).metric =
      (mean? (([rAreaA].filter (fun r => r.area == (AreaRow.mk "A" (some 2)).area)).filterMap
        (·.pm25))).map round2 ∧
    (HourRow.mk 8 (some 100)).metric =
      (mean? (([((8 : Nat), (some 100 : Option Int))].filter
        (fun p => p.1 == (HourRow.mk 8 (some 100)).hour)).filterMap (·.2))).map round2 :=
  ⟨C8_single_rounding_law.2.2.1 [rAreaA] (AreaRow.mk "A" (some 2)) (by decide),
   C8_single_rounding_law.2.2.2.2.1 [((8 : Nat), (some 100 : Option Int))]
     (HourRow.mk 8 (some 100)) (by decide)⟩

/-- C9: a reading missing one numeric field contributes neither to the
numerator nor the denominator of that field's average (per area, the
multiset of averaged values is unchanged by adding the reading), yet the
reading still creates/joins its area group and its other present fields
still contribute to their own aggregations; a reading with a missing
`traffic_count` still joins its hour group without contributing a value. -/
theorem C9_missing_field (docs : List Reading) (r : Reading) :
    (r.pm25 = none →
      (∀ a, ((r :: docs).filter (fun s => s.area == a)).filterMap (·.pm25) =
            (docs.filter (fun s => s.area == a)).filterMap (·.pm25)) ∧
      r.area ∈ (analysis.area_wise_avg_pm25 (r :: docs)).map (·.area) ∧
      (∀ v, r.noise_db = some v →
        v ∈ ((r :: docs).filter (fun s => s.area == r.area)).filterMap (·.noise_db))) ∧
    (r.noise_db = none →
      (∀ a, ((r :: docs).filter (fun s => s.area == a)).filterMap (·.noise_db) =
            (docs.filter (fun s => s.area == a)).filterMap (·.noise_db)) ∧
      r.area ∈ (analysis.avg_noise_by_area (r :: docs)).map (·.area) ∧
      (∀ v, r.pm25 = some v →
        v ∈ ((r :: docs).filter (fun s => s.area == r.area)).filterMap (·.pm25))) ∧
    (r.traffic_count = none →
      ∀ h ps, parseHour? r.timestamp = some h → analysis.toDates docs = .ok ps →
        analysis.toDates (r :: docs) = .ok ((h, none) :: ps) ∧
        (((h, none) :: ps).filter (fun p => p.1 == h)).filterMap (·.2) =
          (ps.filter (fun p => p.1 == h)).filterMap (·.2) ∧
        h ∈ (analysis.groupByHour ((h, none) :: ps)).map (·.hour)) := by
  refine ⟨?_, ?_, ?_⟩
  · intro hnone
    refine ⟨?_, ?_, ?_⟩
    · intro a
      rw [List.filter_cons]
      by_cases ha : r.area == a
      · simp only [ha, if_true, ite_true, List.filterMap_cons, hnone]
      · simp only [ha, Bool.false_eq_true, if_false]
    · unfold analysis.area_wise_avg_pm25
      rw [(List.perm_insertionSort areaRowLE _).map (fun row : AreaRow => row.area) |>.mem_iff,
        groupByArea_mem_iff]
      exact ⟨r, List.mem_cons_self r docs, rfl⟩
    · intro v hv
      refine List.mem_filterMap.mpr ⟨r, ?_, hv⟩
      exact List.mem_filter.mpr ⟨List.mem_cons_self r docs, by simp⟩
  · intro hnone
    refine ⟨?_, ?_, ?_⟩
    · intro a
      rw [List.filter_cons]
      by_cases ha : r.area == a
      · simp only [ha, if_true, ite_true, List.filterMap_cons, hnone]
      · simp only [ha, Bool.false_eq_true, if_false]
    · unfold analysis.avg_noise_by_area
      rw [(List.perm_insertionSort areaRowLE _).map (fun row : AreaRow => row.area) |>.mem_iff,
        groupByArea_mem_iff]
      exact ⟨r, List.mem_cons_self r docs, rfl⟩
    · intro v hv
      refine List.mem_filterMap.mpr ⟨r, ?_, hv⟩
      exact List.mem_filter.mpr ⟨List.mem_cons_self r docs, by simp⟩
  · intro hnone h ps hparse hok
    have hdates : analysis.toDates (r :: docs) = .ok ((h, none) :: ps) := by
      unfold analysis.toDates analysis.toDateHour
      rw [hparse, hnone, hok]
    refine ⟨hdates, ?_, ?_⟩
    · rw [List.filter_cons]
      simp [List.filterMap_cons]
    · rw [groupByHour_mem_iff]
      exact ⟨(h, none), List.mem_cons_self _ _, rfl⟩

/-- Witness for C9: a reading with every numeric field missing, prepended
to the empty store, changes no per-area value multiset, yet its area shows
up in both area aggregations. -/
theorem C9_missing_field_witness :
    (([rAllNone].filter (fun s => s.area == "Market Area")).filterMap (·.pm25) =
      (([] : List Reading).filter (fun s => s.area == "Market Area")).filterMap (·.pm25)) ∧
    rAllNone.area ∈ (analysis.area_wise_avg_pm25 [rAllNone]).map (·.area) ∧
    (([rAllNone].filter (fun s => s.area == "Market Area")).filterMap (·.noise_db) =
      (([] : List Reading).filter (fun s => s.area == "Market Area")).filterMap (·.noise_db)) ∧
    rAllNone.area ∈ (analysis.avg_noise_by_area [rAllNone]).map (·.area) := by
  have h := C9_missing_field [] rAllNone
  have h1 := h.1 rfl
  have h2 := h.2.1 rfl
  exact ⟨h1.1 "Market Area", h1.2.1, h2.1 "Market Area", h2.2.1⟩
